import Mathlib

/-!
  Verification of the Tetto Python SDK (tetto-python-sdk).

  Shallow embedding of the SDK's payment-building arithmetic
  (`tetto/transactions.py`), client orchestration (`tetto/client.py`),
  key loading (`tetto/wallet.py`) and associated-token-address derivation,
  together with proofs of the spec's claims about them.

  Python's `int / int` true division and float arithmetic are modelled
  exactly: a binary64 value is represented by the rational it denotes, and
  each float operation produces the correctly rounded (nearest, ties to
  even) binary64 value of the exact rational result.  This matches CPython
  on the whole normal range; every input considered in this development is
  far from the overflow and subnormal thresholds.
-/

set_option maxRecDepth 100000

namespace PySem

/-- Fuel-driven binary logarithm: `log2F fuel n = ⌊log2 n⌋` whenever
`1 ≤ n ≤ fuel`.  Structural recursion on the fuel keeps it reducible by
the kernel (ordinary `Nat.log2` is defined by well-founded recursion and
does not reduce). -/
def log2F : ℕ → ℕ → ℕ
  | 0, _ => 0
  | f + 1, n => if n < 2 then 0 else log2F f (n / 2) + 1

/-- Exact `⌊log2 n⌋` for `n ≥ 1` (and `0` at `0`), kernel-reducible. -/
def natLog2 (n : ℕ) : ℕ := log2F n n

/-- Round a rational to the nearest integer, ties to even (the IEEE 754
default rounding used by CPython float arithmetic). -/
def rne (x : ℚ) : ℤ :=
  if x - (⌊x⌋ : ℚ) < 1/2 then ⌊x⌋
  else if 1/2 < x - (⌊x⌋ : ℚ) then ⌊x⌋ + 1
  else if ⌊x⌋ % 2 = 0 then ⌊x⌋ else ⌊x⌋ + 1

/-- Exact floor of the base-2 logarithm of a positive rational.
`q.den < 2 ^ k` makes `⌊q * 2 ^ k⌋ ≥ 1`, whose `Nat.log2` then recovers
`⌊log2 q⌋ + k`. -/
def floorLog2 (q : ℚ) : ℤ :=
  let k := natLog2 q.den + 1
  (natLog2 (⌊q * (2 : ℚ) ^ k⌋).toNat : ℤ) - (k : ℤ)

/-- The binary64 value nearest to a positive rational (ties to even):
scale into the mantissa window `[2^52, 2^53)`, round to an integer, and
scale back. -/
def rndPos (q : ℚ) : ℚ :=
  let s : ℤ := 52 - floorLog2 q
  (rne (q * (2 : ℚ) ^ s) : ℚ) * (2 : ℚ) ^ (-s)

/-- Correctly rounded binary64 value of a rational (normal range). -/
def rnd (q : ℚ) : ℚ :=
  if q < 0 then - rndPos (-q) else if q = 0 then 0 else rndPos q

/-- Python `int()` applied to a real value: truncation toward zero. -/
def pyTrunc (x : ℚ) : ℤ := if 0 ≤ x then ⌊x⌋ else -⌊-x⌋

/-- Python 3 `a / b` on ints: the correctly rounded binary64 quotient
(CPython's `long_true_divide` rounds the exact quotient to nearest/even). -/
def truediv (a b : ℤ) : ℚ := rnd ((a : ℚ) / (b : ℚ))

end PySem

namespace Tetto.Transactions
open PySem

/-- `sol_price = 200.0` — the hard-coded USD-per-SOL rate at
transactions.py:129 (`# TODO: Fetch from /api/price/sol`). -/
def sol_price : ℚ := 200

/-- USDC path, transactions.py:64: `amount_base = int(price_usd * 1_000_000)`
for a binary64 `price_usd`. -/
def usdc_amount_base (price_usd : ℚ) : ℤ := pyTrunc (rnd (price_usd * 1000000))

/-- SOL path, transactions.py:130: `sol_amount = price_usd / sol_price`
(binary64 division). -/
def sol_amount (price_usd : ℚ) : ℚ := rnd (price_usd / sol_price)

/-- SOL path, transactions.py:131: `amount_lamports = int(sol_amount * 1e9)`. -/
def amount_lamports (price_usd : ℚ) : ℤ :=
  pyTrunc (rnd (sol_amount price_usd * 1000000000))

/-- transactions.py:67 and 134: `protocol_fee = int(amount_base * fee_bps / 10000)`.
The multiplication is exact integer arithmetic; the division is Python 3
true division (binary64), then `int()` truncates. -/
def protocol_fee (amount_base : ℤ) (fee_bps : ℤ) : ℤ :=
  pyTrunc (truediv (amount_base * fee_bps) 10000)

/-- transactions.py:68 and 135: `agent_amount = amount_base - protocol_fee`. -/
def agent_amount (amount_base : ℤ) (fee_bps : ℤ) : ℤ :=
  amount_base - protocol_fee amount_base fee_bps

/-- Which of the two token branches of `build_and_send_payment` ran. -/
inductive TokenPath where
  | usdc
  | sol
deriving DecidableEq, Repr

/-- The amounts a built payment transfers: total charged, protocol fee,
and service (agent) amount, in base units of the chosen token. -/
structure PaymentPlan where
  path : TokenPath
  amount_base : ℤ
  protocol_fee : ℤ
  agent_amount : ℤ
deriving DecidableEq, Repr

/-- The token dispatch and amount arithmetic of `build_and_send_payment`
(transactions.py:62-135): `if token == "USDC": ... else:  # SOL ...`.
There is no other branch — any token other than `"USDC"` takes the SOL
path — and no failure path for unrecognized tokens. -/
def build_payment_plan (token : String) (price_usd : ℚ) (fee_bps : ℤ) :
    PaymentPlan :=
  if token = "USDC" then
    { path := .usdc
      amount_base := usdc_amount_base price_usd
      protocol_fee := protocol_fee (usdc_amount_base price_usd) fee_bps
      agent_amount := agent_amount (usdc_amount_base price_usd) fee_bps }
  else
    { path := .sol
      amount_base := amount_lamports price_usd
      protocol_fee := protocol_fee (amount_lamports price_usd) fee_bps
      agent_amount := agent_amount (amount_lamports price_usd) fee_bps }

end Tetto.Transactions

namespace Tetto.Client

/-- The per-network constant triple selected in `TettoClient.__init__`
(client.py:62-70): default RPC URL, protocol wallet and USDC mint. -/
structure NetworkConfig where
  rpc_url : String
  protocol_wallet : String
  usdc_mint : String
deriving DecidableEq, Repr

/-- The mainnet constants (client.py:63-66). -/
def mainnetConfig : NetworkConfig where
  rpc_url := "https://api.mainnet-beta.solana.com"
  protocol_wallet := "CYSnefexbvrRU6VxzGfvZqKYM4UixupvDeZg3sUSWm84"
  usdc_mint := "EPjFWdd5AufqSSqeM2qN1xzybapC8G4wEGGkZwyTDt1v"

/-- The devnet constants (client.py:67-70). -/
def devnetConfig : NetworkConfig where
  rpc_url := "https://api.devnet.solana.com"
  protocol_wallet := "BubFsAG8cSEH7NkLpZijctRpsZkCiaWqCdRfh8kUpXEt"
  usdc_mint := "4zMMC9srt5Ri5X14GAgXhaHii3GnPAEERYPJgZJDncDU"

/-- Python `x or d` on an optional string: `None` and `""` are falsy. -/
def pyOr (x : Option String) (d : String) : String :=
  match x with
  | none => d
  | some s => if s = "" then d else s

/-- The network selection of `TettoClient.__init__` (client.py:62-70):
`if network == "mainnet": ... else:  # devnet ...` — a plain two-way
branch with no rejection of unknown names. -/
def init_network_config (network : String) (rpc_url : Option String)
    (protocol_wallet : Option String) : NetworkConfig :=
  if network = "mainnet" then
    { rpc_url := pyOr rpc_url mainnetConfig.rpc_url
      protocol_wallet := pyOr protocol_wallet mainnetConfig.protocol_wallet
      usdc_mint := mainnetConfig.usdc_mint }
  else
    { rpc_url := pyOr rpc_url devnetConfig.rpc_url
      protocol_wallet := pyOr protocol_wallet devnetConfig.protocol_wallet
      usdc_mint := devnetConfig.usdc_mint }

/-- A signing keypair as `call_agent` uses it: a public address and the
(opaque) ed25519 signing function. -/
structure Keypair where
  pubkey : String
  sign_message : String → String

/-- The platform's answer to POST .../build-transaction. -/
structure BuildResponse where
  ok : Bool
  error : Option String
  payment_intent_id : String
  transaction : String
  amount_base : ℤ
  token : String

/-- The platform's answer to POST /api/agents/call. -/
structure CallResponse where
  ok : Bool
  error : Option String
  message : String
  output : String
  tx_signature : String
  receipt_id : String
  explorer_url : String
  agent_received : ℤ
  protocol_fee : ℤ

/-- Remote state: what each endpoint would answer during one call. -/
structure Env where
  agent_ok : Bool
  agent_error : Option String
  build_response : BuildResponse
  call_response : CallResponse

/-- One externally observable step of the client.  The rpc* actions are
direct ledger-network operations; `call_agent` never emits them (they
are emitted by the self-built variant, `build_and_send_payment`). -/
inductive Action where
  | httpGetAgent (agent_id : String)
  | httpPostBuildTransaction (agent_id payer_wallet selected_token input : String)
  | signMessage (message : String)
  | httpPostCall (payment_intent_id signed_message signature : String)
  | rpcGetLatestBlockhash
  | rpcSendTransaction (tx : String)
  | rpcConfirmTransaction (signature : String)

/-- Failure modes of `call_agent`; the code raises a bare `Exception`
whose message distinguishes the raise sites, modelled as constructors. -/
inductive CallError where
  | keypairRequired
  | agentNotFound (msg : String)
  | transactionBuildingFailed (msg : String)
  | agentCallFailed (msg : String)

/-- The dictionary returned by a successful `call_agent`. -/
structure CallResult where
  ok : Bool
  message : String
  output : String
  tx_signature : String
  receipt_id : String
  explorer_url : String
  agent_received : ℤ
  protocol_fee : ℤ

/-- Trace-level embedding of `TettoClient.call_agent` (client.py:122-252):
keypair check, GET agent, POST build-transaction (with the input payload),
local signing of the returned transaction, and the single POST of the
signed transaction plus the payment-intent id to the relay endpoint.
The base64/bincode round-trip of the platform transaction is modelled as
the identity on the opaque payload string. -/
def call_agent (env : Env) (keypair : Option Keypair) (agent_id : String)
    (input_data : String) (preferred_token : String) :
    List Action × Except CallError CallResult :=
  match keypair with
  | none => ([], .error .keypairRequired)
  | some kp =>
    let t1 : List Action := [.httpGetAgent agent_id]
    if env.agent_ok = false then
      (t1, .error (.agentNotFound (env.agent_error.getD "Agent not found")))
    else
      let t2 := t1 ++
        [.httpPostBuildTransaction agent_id kp.pubkey preferred_token input_data]
      if env.build_response.ok = false then
        (t2, .error (.transactionBuildingFailed
          (env.build_response.error.getD "Transaction building failed")))
      else
        let msg := env.build_response.transaction
        let sig := kp.sign_message msg
        let t4 := t2 ++ [.signMessage msg,
          .httpPostCall env.build_response.payment_intent_id msg sig]
        if env.call_response.ok = false then
          (t4, .error (.agentCallFailed
            (env.call_response.error.getD "Agent call failed")))
        else
          (t4, .ok
            { ok := env.call_response.ok
              message := env.call_response.message
              output := env.call_response.output
              tx_signature := env.call_response.tx_signature
              receipt_id := env.call_response.receipt_id
              explorer_url := env.call_response.explorer_url
              agent_received := env.call_response.agent_received
              protocol_fee := env.call_response.protocol_fee })

/-- Does the action talk to the ledger network directly? -/
def Action.isLedger : Action → Bool
  | .rpcGetLatestBlockhash => true
  | .rpcSendTransaction _ => true
  | .rpcConfirmTransaction _ => true
  | _ => false

/-- Is the action the POST to the submission (relay) endpoint? -/
def Action.isSubmitPost : Action → Bool
  | .httpPostCall _ _ _ => true
  | _ => false

/-- Is the action a local signing step? -/
def Action.isSign : Action → Bool
  | .signMessage _ => true
  | _ => false

/-- The actions that follow the first local signing step of a trace. -/
def actionsAfterSign : List Action → List Action
  | [] => []
  | .signMessage _ :: rest => rest
  | _ :: rest => actionsAfterSign rest

/-- A concrete keypair for the client witnesses. -/
def sampleKeypair : Keypair where
  pubkey := "PAYER"
  sign_message := fun m => String.append "sig:" m

/-- A concrete all-ok environment. -/
def sampleEnvOk : Env where
  agent_ok := true
  agent_error := none
  build_response :=
    { ok := true, error := none, payment_intent_id := "intent-1"
      transaction := "tx-bytes", amount_base := 1000000, token := "USDC" }
  call_response :=
    { ok := true, error := none, message := "ok", output := "out"
      tx_signature := "sg", receipt_id := "r1", explorer_url := "u"
      agent_received := 900000, protocol_fee := 100000 }

/-- A concrete environment whose build step rejects the input. -/
def sampleEnvBuildFail : Env where
  agent_ok := true
  agent_error := none
  build_response :=
    { ok := false, error := some "Input validation failed"
      payment_intent_id := "", transaction := "", amount_base := 0
      token := "USDC" }
  call_response :=
    { ok := true, error := none, message := "", output := ""
      tx_signature := "", receipt_id := "", explorer_url := ""
      agent_received := 0, protocol_fee := 0 }

end Tetto.Client

namespace Tetto.Wallet

/-- A parsed JSON value as the loaders see it after `json.load`: a list
of integers, a number (Python bools fold in as 0/1), or anything else —
strings, objects, floats, null — on which `bytes()` raises. -/
inductive PyValue where
  | list (entries : List ℤ)
  | num (n : ℤ)
  | other

/-- The raise sites of the two loaders: FileNotFoundError, the explicit
ValueError checks, json decoding failures, `bytes()` conversion
failures, and rejections inside solders' `Keypair.from_bytes`. -/
inductive KeyError where
  | fileNotFound
  | invalidKeypairFormat
  | envVarNotSet
  | jsonDecodeError
  | bytesConversionError
  | fromBytesError

/-- Key material as `Keypair.from_bytes` accepts it: 32 secret bytes
plus the 32-byte public key. -/
structure Keypair where
  secret : List ℤ
  pubkey : List ℤ

/-- Python `bytes(v)` on a JSON-decoded value: a list of ints in
[0, 256) gives those bytes; a non-negative int `n` gives `n` zero bytes
(a Python surprise the env loader is exposed to); anything else raises. -/
def pyBytes : PyValue → Except KeyError (List ℤ)
  | .list l =>
    if l.all (fun b => 0 ≤ b && b < 256) then .ok l
    else .error .bytesConversionError
  | .num n =>
    if 0 ≤ n then .ok (List.replicate n.toNat 0)
    else .error .bytesConversionError
  | .other => .error .bytesConversionError

/-- Does a 64-byte buffer hold a consistent keypair: public half a valid
curve point and equal to the public key derived from the secret half?
`valid_point` and `derive_pubkey` are the ed25519 primitives of the
dependency, taken as parameters. -/
def consistentKeypairBytes (valid_point : List ℤ → Bool)
    (derive_pubkey : List ℤ → List ℤ) (bs : List ℤ) : Bool :=
  valid_point (bs.drop 32) && decide (derive_pubkey (bs.take 32) = bs.drop 32)

/-- Modelled from the dependency (solders / solana-sdk
`Keypair.from_bytes`, a library call, not repository code): exactly 64
bytes are required, the public half must decompress to a curve point and
must match the public key derived from the secret half; otherwise the
call raises. -/
def keypair_from_bytes (valid_point : List ℤ → Bool)
    (derive_pubkey : List ℤ → List ℤ) (bs : List ℤ) :
    Except KeyError Keypair :=
  if bs.length = 64 then
    if consistentKeypairBytes valid_point derive_pubkey bs then
      .ok ⟨bs.take 32, bs.drop 32⟩
    else .error .fromBytesError
  else .error .fromBytesError

/-- Byte decoding plus `from_bytes` validation —
`Keypair.from_bytes(bytes(v))` — the shared tail of both loaders. -/
def loadBytes (valid_point : List ℤ → Bool) (derive_pubkey : List ℤ → List ℤ)
    (v : PyValue) : Except KeyError Keypair :=
  (pyBytes v).bind (keypair_from_bytes valid_point derive_pubkey)

/-- Contents of a key file as seen by `load_keypair_from_file`. -/
inductive FileContents where
  | missing
  | invalidJson
  | json (v : PyValue)

/-- wallet.py:11-24: existence check, `json.load`, the explicit
`isinstance(..., list) and len == 64` check raising
`ValueError("Invalid keypair format")`, then
`Keypair.from_bytes(bytes(secret_key))`. -/
def load_keypair_from_file (valid_point : List ℤ → Bool)
    (derive_pubkey : List ℤ → List ℤ) (fs : String → FileContents)
    (path : String) : Except KeyError Keypair :=
  match fs path with
  | .missing => .error .fileNotFound
  | .invalidJson => .error .jsonDecodeError
  | .json v =>
    match v with
    | .list l =>
      if l.length = 64 then loadBytes valid_point derive_pubkey (.list l)
      else .error .invalidKeypairFormat
    | _ => .error .invalidKeypairFormat

/-- Contents of the environment variable as `load_keypair_from_env`
sees it; `unsetOrEmpty` covers both an unset variable and the empty
string, which are equally falsy under `if not secret_key_str`. -/
inductive EnvContents where
  | unsetOrEmpty
  | invalidJson
  | json (v : PyValue)

/-- wallet.py:27-35: falsy check raising ValueError, `json.loads`, then
`Keypair.from_bytes(bytes(secret_key))` — with no explicit length or
type check of its own. -/
def load_keypair_from_env (valid_point : List ℤ → Bool)
    (derive_pubkey : List ℤ → List ℤ) (envm : String → EnvContents)
    (env_var : String) : Except KeyError Keypair :=
  match envm env_var with
  | .unsetOrEmpty => .error .envVarNotSet
  | .invalidJson => .error .jsonDecodeError
  | .json v => loadBytes valid_point derive_pubkey v

/-- Is the decoded JSON value a byte array of the expected size 64? -/
def isKeyArray64 : PyValue → Bool
  | .list l => (l.length == 64) && l.all (fun b => 0 ≤ b && b < 256)
  | _ => false

end Tetto.Wallet

namespace Tetto.Ata

/-- A 32-byte public key or address: a function from byte index to
byte value.  The function representation gives decidable equality and
a finite type of cardinality 256^32 = 2^256. -/
abbrev Pubkey := Fin 32 → Fin 256

/-- The bytes of a pubkey, in index order. -/
def Pubkey.bytes (p : Pubkey) : List ℕ :=
  (List.finRange 32).map (fun i => (p i).val)

/-- Build a pubkey from explicit byte values (entries are reduced mod
256; every constant used below is already in range). -/
def pubkeyOfList (l : List ℕ) : Pubkey :=
  fun i => ⟨l.getD i.val 0 % 256, Nat.mod_lt _ (by norm_num)⟩

/-- 32-bit word reduction. -/
def w32 (n : ℕ) : ℕ := n % 4294967296

/-- Rotate a 32-bit word right by k. -/
def rotr32 (x k : ℕ) : ℕ := w32 (x / 2 ^ k + x % 2 ^ k * 2 ^ (32 - k))

/-- The four SHA-256 sigma functions. -/
def bigSigma0 (x : ℕ) : ℕ := rotr32 x 2 ^^^ rotr32 x 13 ^^^ rotr32 x 22

/-- Second big sigma. -/
def bigSigma1 (x : ℕ) : ℕ := rotr32 x 6 ^^^ rotr32 x 11 ^^^ rotr32 x 25

/-- First message-schedule sigma. -/
def smallSigma0 (x : ℕ) : ℕ := rotr32 x 7 ^^^ rotr32 x 18 ^^^ x / 8

/-- Second message-schedule sigma. -/
def smallSigma1 (x : ℕ) : ℕ := rotr32 x 17 ^^^ rotr32 x 19 ^^^ x / 1024

/-- The 64 SHA-256 round constants. -/
def sha256K : List ℕ := [
  1116352408, 1899447441, 3049323471, 3921009573, 961987163, 1508970993,
  2453635748, 2870763221, 3624381080, 310598401, 607225278, 1426881987,
  1925078388, 2162078206, 2614888103, 3248222580, 3835390401, 4022224774,
  264347078, 604807628, 770255983, 1249150122, 1555081692, 1996064986,
  2554220882, 2821834349, 2952996808, 3210313671, 3336571891, 3584528711,
  113926993, 338241895, 666307205, 773529912, 1294757372, 1396182291,
  1695183700, 1986661051, 2177026350, 2456956037, 2730485921, 2820302411,
  3259730800, 3345764771, 3516065817, 3600352804, 4094571909, 275423344,
  430227734, 506948616, 659060556, 883997877, 958139571, 1322822218,
  1537002063, 1747873779, 1955562222, 2024104815, 2227730452, 2361852424,
  2428436474, 2756734187, 3204031479, 3329325298
]

/-- The SHA-256 initial state. -/
def sha256H0 : List ℕ := [
  1779033703, 3144134277, 1013904242, 2773480762,
  1359893119, 2600822924, 528734635, 1541459225
]

/-- Extend the 16 message words of one block to 64 via the sigma
recurrence (fuel-driven, 48 steps). -/
def extendMsg : ℕ → List ℕ → List ℕ
  | 0, ws => ws
  | t + 1, ws =>
    let i := ws.length
    let next := w32 (smallSigma1 (ws.getD (i - 2) 0) + ws.getD (i - 7) 0
      + smallSigma0 (ws.getD (i - 15) 0) + ws.getD (i - 16) 0)
    extendMsg t (ws ++ [next])

/-- One SHA-256 round: the state is the 8-word list [a,b,c,d,e,f,g,h],
the argument the pair of round constant and schedule word. -/
def sha256Round (st : List ℕ) (kw : ℕ × ℕ) : List ℕ :=
  match st with
  | [a, b, c, d, e, f, g, h] =>
    let ch := (e &&& f) ^^^ ((e ^^^ 4294967295) &&& g)
    let t1 := w32 (h + bigSigma1 e + ch + kw.1 + kw.2)
    let maj := (a &&& b) ^^^ (a &&& c) ^^^ (b &&& c)
    let t2 := w32 (bigSigma0 a + maj)
    [w32 (t1 + t2), a, b, c, w32 (d + t1), e, f, g]
  | st => st

/-- Big-endian bytes to 32-bit words, four at a time. -/
def bytesToWords : List ℕ → List ℕ
  | b0 :: b1 :: b2 :: b3 :: rest =>
    (b0 * 16777216 + b1 * 65536 + b2 * 256 + b3) :: bytesToWords rest
  | _ => []

/-- Compress one 64-byte block into the running 8-word state. -/
def sha256Compress (st : List ℕ) (block : List ℕ) : List ℕ :=
  let ws := extendMsg 48 (bytesToWords block)
  let out := (sha256K.zip ws).foldl sha256Round st
  (st.zip out).map (fun pr => w32 (pr.1 + pr.2))

/-- Process the padded input in 64-byte blocks (fuel bounds the block
count; structural recursion keeps it kernel-reducible). -/
def sha256Blocks : ℕ → List ℕ → List ℕ → List ℕ
  | 0, st, _ => st
  | t + 1, st, bytes =>
    if bytes = [] then st
    else sha256Blocks t (sha256Compress st (bytes.take 64)) (bytes.drop 64)

/-- SHA-256 padding: 0x80, zeros to 56 mod 64, then the bit length as
eight big-endian bytes. -/
def sha256Pad (msg : List ℕ) : List ℕ :=
  let len := msg.length
  let zeros := (64 - (len + 9) % 64) % 64
  let bl := len * 8
  msg ++ [128] ++ List.replicate zeros 0 ++
    [bl / 72057594037927936 % 256, bl / 281474976710656 % 256,
     bl / 1099511627776 % 256, bl / 4294967296 % 256,
     bl / 16777216 % 256, bl / 65536 % 256, bl / 256 % 256, bl % 256]

/-- A 32-bit word as four big-endian bytes. -/
def wordBytes (x : ℕ) : List ℕ :=
  [x / 16777216 % 256, x / 65536 % 256, x / 256 % 256, x % 256]

/-- The SHA-256 digest (32 bytes) of a byte list. -/
def sha256 (msg : List ℕ) : List ℕ :=
  let padded := sha256Pad msg
  ((sha256Blocks (padded.length / 64 + 1) sha256H0 padded).map wordBytes).flatten

/-- The Curve25519 field prime. -/
def p25519 : ℕ := 2 ^ 255 - 19

/-- Fuel-driven modular exponentiation, eight exponent bits per step
(structural, hence kernel-reducible, and shallow enough to evaluate). -/
def powModF : ℕ → ℕ → ℕ → ℕ → ℕ
  | 0, _, _, m => 1 % m
  | t + 1, b, e, m =>
    if e = 0 then 1 % m
    else powModF t (b ^ 256 % m) (e / 256) m * b ^ (e % 256) % m

/-- `b ^ e mod m` for exponents below `2 ^ 256`. -/
def powMod (b e m : ℕ) : ℕ := powModF 32 (b % m) e m

/-- The Edwards curve constant d = -121665/121666 mod p. -/
def edD : ℕ := (p25519 - 121665) * powMod 121666 (p25519 - 2) p25519 % p25519

/-- Little-endian bytes to a natural number. -/
def leToNat : List ℕ → ℕ
  | [] => 0
  | b :: rest => b + 256 * leToNat rest

/-- Does a 32-byte string decompress to an Edwards curve point
(curve25519-dalek CompressedEdwardsY decompression succeeds)?  The top
bit is the x-sign bit and is masked off; y is implicitly reduced mod p;
decompression succeeds iff u/v is a square, where u = y^2 - 1 and
v = d y^2 + 1. -/
def onCurve (bytes32 : List ℕ) : Bool :=
  let y := leToNat bytes32 % 2 ^ 255 % p25519
  let u := (y * y + p25519 - 1) % p25519
  let v := (edD * (y * y) + 1) % p25519
  if u = 0 then true
  else if v = 0 then false
  else powMod (u * powMod v (p25519 - 2) p25519 % p25519)
    ((p25519 - 1) / 2) p25519 = 1

/-- The SPL token program id, the 32 bytes of
"TokenkegQfeZyiNwAJbNbGKPFXCWuBvf9Ss623VQ5DA" (transactions.py:19). -/
def TOKEN_PROGRAM_ID : List ℕ := [
  6, 221, 246, 225, 215, 101, 161, 147, 217, 203,
  225, 70, 206, 235, 121, 172, 28, 180, 133, 237,
  95, 91, 55, 145, 58, 140, 245, 133, 126, 255,
  0, 169
]

/-- The associated token program id, the 32 bytes of
"ATokenGPvbdGVxr1b2hvZbsiqW5xWH25efTNsLJA8knL" (transactions.py:32). -/
def ASSOCIATED_TOKEN_PROGRAM_ID : List ℕ := [
  140, 151, 37, 143, 78, 36, 137, 241, 187, 61,
  16, 41, 20, 142, 13, 131, 11, 90, 19, 153,
  218, 255, 16, 132, 4, 142, 123, 216, 219, 233,
  248, 89
]

/-- The ASCII bytes of "ProgramDerivedAddress". -/
def PDA_MARKER : List ℕ := [
  80, 114, 111, 103, 114, 97, 109, 68, 101, 114,
  105, 118, 101, 100, 65, 100, 100, 114, 101, 115,
  115
]

/-- One derivation candidate: sha256(seeds ++ [bump] ++ program ++ marker). -/
def pdaCandidate (seeds : List ℕ) (bump : ℕ) (program : List ℕ) : List ℕ :=
  sha256 (seeds ++ [bump] ++ program ++ PDA_MARKER)

/-- `Pubkey.find_program_address` (solders, a library call): try bump
seeds 255, 254, ..., 0 and return the first candidate hash that does
NOT decompress to a curve point, together with its bump. -/
def findProgramAddress (seeds program : List ℕ) : Option (List ℕ × ℕ) :=
  (List.range 256).findSome? (fun i =>
    let bump := 255 - i
    let cand := pdaCandidate seeds bump program
    if onCurve cand then none else some (cand, bump))

/-- transactions.py:22-42 `get_associated_token_address`: derive the
associated token account from the seeds [wallet, TOKEN_PROGRAM_ID,
mint] against the associated token program.  A pure function of the
two pubkeys: no I/O appears anywhere in the pipeline. -/
def get_associated_token_address (wallet mint : Pubkey) : Option Pubkey :=
  (findProgramAddress (wallet.bytes ++ TOKEN_PROGRAM_ID ++ mint.bytes)
    ASSOCIATED_TOKEN_PROGRAM_ID).map (fun r => pubkeyOfList r.1)

/-- A concrete owner wallet (bytes 0..31) for the validation theorems. -/
def walletSample : Pubkey := pubkeyOfList [0, 1, 2, 3, 4, 5, 6, 7, 8, 9, 10, 11, 12, 13, 14, 15, 16, 17, 18, 19, 20, 21, 22, 23, 24, 25, 26, 27, 28, 29, 30, 31]

/-- The devnet USDC mint (base58 "4zMMC9srt5Ri5X14GAgXhaHii3GnPAEERYPJgZJDncDU"). -/
def usdcDevnetMint : Pubkey := pubkeyOfList [59, 68, 44, 179, 145, 33, 87, 241, 58, 147, 61, 1, 52, 40, 45, 3, 43, 95, 254, 205, 1, 162, 219, 241, 183, 121, 6, 8, 223, 0, 46, 167]

/-- Totality: every (wallet, mint) pair resolves to an address. -/
def AtaTotal : Prop :=
  ∀ w m : Pubkey, (get_associated_token_address w m).isSome

/-- Global injectivity: distinct pairs resolve to distinct addresses. -/
def AtaInjective : Prop :=
  ∀ w m w' m' : Pubkey, (w, m) ≠ (w', m') →
    get_associated_token_address w m ≠ get_associated_token_address w' m'

end Tetto.Ata

namespace PySem

/-- Correctness of the fuel-driven logarithm on its intended domain. -/
theorem log2F_spec :
    ∀ f n : ℕ, 1 ≤ n → n ≤ f → 2 ^ log2F f n ≤ n ∧ n < 2 ^ (log2F f n + 1) := by
  intro f
  induction f with
  | zero => intro n h1 h2; omega
  | succ f ih =>
    intro n h1 h2
    by_cases hn : n < 2
    · have hone : n = 1 := by omega
      subst hone
      simp [log2F]
    · have hrec : log2F (f + 1) n = log2F f (n / 2) + 1 := by
        simp [log2F, hn]
      have h1' : 1 ≤ n / 2 := by omega
      have h2' : n / 2 ≤ f := by omega
      obtain ⟨ha, hb⟩ := ih (n / 2) h1' h2'
      rw [hrec]
      rw [pow_succ] at hb ⊢
      rw [pow_succ]
      omega

/-- `natLog2` is the exact binary logarithm for positive inputs. -/
theorem natLog2_spec (n : ℕ) (h : 1 ≤ n) :
    2 ^ natLog2 n ≤ n ∧ n < 2 ^ (natLog2 n + 1) :=
  log2F_spec n n h le_rfl

/-- Nearest-integer rounding is below the midpoint above. -/
theorem rne_le (x : ℚ) : (rne x : ℚ) ≤ x + 1/2 := by
  have hf : (⌊x⌋ : ℚ) ≤ x := Int.floor_le x
  have hf' : x < ⌊x⌋ + 1 := Int.lt_floor_add_one x
  unfold rne
  split
  next h => linarith
  next h =>
    split
    next h2 => push_cast; linarith
    next h2 =>
      split
      next => linarith
      next => push_cast; linarith

/-- Nearest-integer rounding is above the midpoint below. -/
theorem rne_ge (x : ℚ) : x - 1/2 ≤ (rne x : ℚ) := by
  have hf : (⌊x⌋ : ℚ) ≤ x := Int.floor_le x
  have hf' : x < ⌊x⌋ + 1 := Int.lt_floor_add_one x
  unfold rne
  split
  next h => linarith
  next h =>
    split
    next h2 => push_cast; linarith
    next h2 =>
      split
      next => linarith
      next => push_cast; linarith

/-- Rounding an integer is exact. -/
theorem rne_intCast (n : ℤ) : rne (n : ℚ) = n := by
  unfold rne
  simp

/-- The two-sided bracketing of a positive rational by `floorLog2`. -/
theorem floorLog2_spec (q : ℚ) (hq : 0 < q) :
    (2 : ℚ) ^ floorLog2 q ≤ q ∧ q < (2 : ℚ) ^ (floorLog2 q + 1) := by
  have hden : 1 ≤ q.den := q.pos
  have hnum : 0 < q.num := Rat.num_pos.mpr hq
  set k := natLog2 q.den + 1 with hk
  have hdenlt : (q.den : ℚ) < (2 : ℚ) ^ k := by
    have := (natLog2_spec q.den hden).2
    exact_mod_cast this
  have h2k : (0 : ℚ) < (2 : ℚ) ^ k := by positivity
  -- Q := q * 2 ^ k is at least one
  have hQ1 : (1 : ℚ) ≤ q * (2 : ℚ) ^ k := by
    have hmul : q * (q.den : ℚ) = (q.num : ℚ) := by
      exact_mod_cast Rat.mul_den_eq_num q
    have h1num : (1 : ℚ) ≤ (q.num : ℚ) := by exact_mod_cast hnum
    have hgap : 0 < q * ((2 : ℚ) ^ k - (q.den : ℚ)) := mul_pos hq (by linarith)
    have hgap' : q * ((2 : ℚ) ^ k - (q.den : ℚ)) = q * (2:ℚ)^k - q * (q.den : ℚ) := by
      ring
    linarith [hgap, hgap', hmul, h1num]
  set m := (⌊q * (2 : ℚ) ^ k⌋).toNat with hm
  have hfl1 : (1 : ℤ) ≤ ⌊q * (2 : ℚ) ^ k⌋ := by
    rw [Int.le_floor]; exact_mod_cast hQ1
  have hmEq : (m : ℤ) = ⌊q * (2 : ℚ) ^ k⌋ := Int.toNat_of_nonneg (by omega)
  have hm1 : 1 ≤ m := by omega
  obtain ⟨hL1, hL2⟩ := natLog2_spec m hm1
  have hfloor_le : ((m : ℚ)) ≤ q * (2 : ℚ) ^ k := by
    have := Int.floor_le (q * (2 : ℚ) ^ k)
    rw [← hmEq] at this
    exact_mod_cast this
  have hlt_floor : q * (2 : ℚ) ^ k < (m : ℚ) + 1 := by
    have := Int.lt_floor_add_one (q * (2 : ℚ) ^ k)
    rw [← hmEq] at this
    exact_mod_cast this
  have hlow : (2 : ℚ) ^ (natLog2 m) ≤ q * (2 : ℚ) ^ k := by
    calc ((2 : ℚ) ^ (natLog2 m)) ≤ (m : ℚ) := by exact_mod_cast hL1
      _ ≤ q * (2 : ℚ) ^ k := hfloor_le
  have hhigh : q * (2 : ℚ) ^ k < (2 : ℚ) ^ (natLog2 m + 1) := by
    have hm2 : (m : ℚ) + 1 ≤ (2 : ℚ) ^ (natLog2 m + 1) := by
      have : m + 1 ≤ 2 ^ (natLog2 m + 1) := hL2
      exact_mod_cast this
    linarith
  -- now unfold floorLog2 and convert to zpow
  have hfl2eq : floorLog2 q = (natLog2 m : ℤ) - (k : ℤ) := by
    simp only [floorLog2, hm, hk]
  rw [hfl2eq]
  constructor
  · rw [sub_eq_add_neg, zpow_add₀ (by norm_num : (2:ℚ) ≠ 0)]
    rw [zpow_neg, zpow_natCast, zpow_natCast]
    rw [← div_le_iff₀ h2k] at hlow
    rw [div_eq_mul_inv] at hlow
    exact hlow
  · have hexp : (natLog2 m : ℤ) - (k : ℤ) + 1 = ((natLog2 m + 1 : ℕ) : ℤ) - (k : ℤ) := by
      push_cast; ring
    rw [hexp, sub_eq_add_neg, zpow_add₀ (by norm_num : (2:ℚ) ≠ 0)]
    rw [zpow_neg, zpow_natCast, zpow_natCast]
    rw [← lt_div_iff₀ h2k] at hhigh
    rw [div_eq_mul_inv] at hhigh
    exact hhigh

/-- The rounding error of `rndPos` is at most half an ulp:
`2 ^ (floorLog2 q - 53)`. -/
theorem rndPos_bounds (q : ℚ) :
    q - (2 : ℚ) ^ (floorLog2 q - 53) ≤ rndPos q
    ∧ rndPos q ≤ q + (2 : ℚ) ^ (floorLog2 q - 53) := by
  set s : ℤ := 52 - floorLog2 q with hs
  have h2s : (0 : ℚ) < (2 : ℚ) ^ (-s) := by positivity
  have hlo := rne_ge (q * (2 : ℚ) ^ s)
  have hhi := rne_le (q * (2 : ℚ) ^ s)
  have hcancel : (2 : ℚ) ^ s * (2 : ℚ) ^ (-s) = 1 := by
    rw [← zpow_add₀ (by norm_num : (2:ℚ) ≠ 0)]
    simp
  have herr : (1 / 2 : ℚ) * (2 : ℚ) ^ (-s) = (2 : ℚ) ^ (floorLog2 q - 53) := by
    have : (1 / 2 : ℚ) = (2 : ℚ) ^ (-1 : ℤ) := by norm_num
    rw [this, ← zpow_add₀ (by norm_num : (2:ℚ) ≠ 0)]
    congr 1
    omega
  constructor
  · have hstep := mul_le_mul_of_nonneg_right hlo (le_of_lt h2s)
    have hexp : (q * (2:ℚ) ^ s - 1/2) * (2:ℚ) ^ (-s)
        = q * ((2:ℚ) ^ s * (2:ℚ) ^ (-s)) - (1/2) * (2:ℚ) ^ (-s) := by ring
    rw [hexp, hcancel, herr] at hstep
    simp only [rndPos]
    rw [← hs]
    linarith
  · have hstep := mul_le_mul_of_nonneg_right hhi (le_of_lt h2s)
    have hexp : (q * (2:ℚ) ^ s + 1/2) * (2:ℚ) ^ (-s)
        = q * ((2:ℚ) ^ s * (2:ℚ) ^ (-s)) + (1/2) * (2:ℚ) ^ (-s) := by ring
    rw [hexp, hcancel, herr] at hstep
    simp only [rndPos]
    rw [← hs]
    linarith

/-- On positive inputs `rnd` is `rndPos`. -/
theorem rnd_pos_eq (q : ℚ) (hq : 0 < q) : rnd q = rndPos q := by
  unfold rnd
  rw [if_neg (not_lt.mpr hq.le), if_neg hq.ne']

/-- If the mantissa-window scaling of `q` lands on an integer, rounding is
exact. -/
theorem rndPos_eq_self (q : ℚ) (n : ℤ)
    (h : q * (2 : ℚ) ^ (52 - floorLog2 q) = (n : ℚ)) : rndPos q = q := by
  simp only [rndPos]
  rw [h, rne_intCast, ← h]
  have hcancel : (2 : ℚ) ^ (52 - floorLog2 q) * (2 : ℚ) ^ (-(52 - floorLog2 q)) = 1 := by
    rw [← zpow_add₀ (by norm_num : (2:ℚ) ≠ 0)]
    simp
  calc q * (2:ℚ) ^ (52 - floorLog2 q) * (2:ℚ) ^ (-(52 - floorLog2 q))
      = q * ((2:ℚ) ^ (52 - floorLog2 q) * (2:ℚ) ^ (-(52 - floorLog2 q))) := by ring
    _ = q := by rw [hcancel]; ring

/-- `pyTrunc` agrees with the floor on non-negative values. -/
theorem pyTrunc_eq_floor (x : ℚ) (h : 0 ≤ x) : pyTrunc x = ⌊x⌋ := by
  unfold pyTrunc
  rw [if_pos h]

/-- Core numerical fact: for `0 ≤ n ≤ 10^15`, truncating the binary64
quotient `n / 10000` gives the exact integer floor.  (This fails above
that range: see the C2 counterexample.) -/
theorem trunc_truediv_eq_div (n : ℤ) (h0 : 0 ≤ n) (hb : n ≤ 10 ^ 15) :
    pyTrunc (truediv n 10000) = n / 10000 := by
  rcases eq_or_lt_of_le h0 with h | hpos
  · rw [← h]
    with_unfolding_all rfl
  · -- positive case: the quotient lies in [1/10000, 10^11], so the
    -- rounding error 2^(floorLog2 - 53) ≤ 2^(-17) cannot push the value
    -- across an integer boundary.
    set q : ℚ := (n : ℚ) / 10000 with hqdef
    have hqpos : 0 < q :=
      div_pos (by exact_mod_cast hpos) (by norm_num)
    have hq_lb : (1 : ℚ) / 10000 ≤ q := by
      rw [hqdef]
      have h1n : (1 : ℚ) ≤ (n : ℚ) := by exact_mod_cast hpos
      linarith
    have hq_ub : q ≤ (10 : ℚ) ^ 11 := by
      rw [hqdef, div_le_iff₀ (by norm_num : (0:ℚ) < 10000)]
      have hnq : (n : ℚ) ≤ ((10 : ℚ)) ^ 15 := by exact_mod_cast hb
      norm_num at hnq ⊢
      linarith
    obtain ⟨hz1, hz2⟩ := floorLog2_spec q hqpos
    have hz_ub : floorLog2 q ≤ 36 := by
      have h37 : q < (2 : ℚ) ^ (37 : ℤ) := by
        have : ((2 : ℚ) ^ (37 : ℤ)) = ((2 : ℚ) ^ (37 : ℕ)) := zpow_natCast 2 37
        rw [this]
        norm_num at hq_ub ⊢
        linarith
      have := (zpow_lt_zpow_iff_right₀ (by norm_num : (1:ℚ) < 2)).mp
        (lt_of_le_of_lt hz1 h37)
      omega
    have herr : (2:ℚ) ^ (floorLog2 q - 53) < 1 / 10000 := by
      have herr_ub : (2:ℚ) ^ (floorLog2 q - 53) ≤ (2:ℚ) ^ (-17 : ℤ) :=
        zpow_le_zpow_right₀ (by norm_num) (by omega)
      have herr17 : (2:ℚ) ^ (-17 : ℤ) < 1 / 10000 := by
        rw [show ((-17 : ℤ)) = -((17 : ℕ) : ℤ) from rfl, zpow_neg, zpow_natCast]
        norm_num
      exact lt_of_le_of_lt herr_ub herr17
    have hdiv : 10000 * (n / 10000) + n % 10000 = n := Int.ediv_add_emod n 10000
    have hr0 : 0 ≤ n % 10000 := Int.emod_nonneg n (by norm_num)
    have hr1 : n % 10000 < 10000 := Int.emod_lt_of_pos n (by norm_num)
    have hf0 : 0 ≤ n / 10000 := Int.ediv_nonneg h0 (by norm_num)
    have hq_eq : q = ((n / 10000 : ℤ) : ℚ) + ((n % 10000 : ℤ) : ℚ) / 10000 := by
      rw [hqdef]
      have hcast : (n : ℚ) = 10000 * ((n / 10000 : ℤ) : ℚ) + ((n % 10000 : ℤ) : ℚ) := by
        exact_mod_cast congrArg (fun z : ℤ => (z : ℚ)) hdiv.symm
      rw [hcast]
      ring
    have htd : truediv n 10000 = rnd q := by
      unfold truediv
      rw [hqdef]
      norm_num
    rw [htd, rnd_pos_eq q hqpos]
    obtain ⟨hlo, hhi⟩ := rndPos_bounds q
    clear_value q
    by_cases hr : n % 10000 = 0
    · -- the quotient is exactly the integer n / 10000
      have hqf : q = ((n / 10000 : ℤ) : ℚ) := by
        rw [hq_eq, hr]
        norm_num
      have hs_nonneg : (0 : ℤ) ≤ 52 - floorLog2 q := by omega
      have h2z : ((2:ℚ)) ^ (52 - floorLog2 q) = ((2:ℚ)) ^ ((52 - floorLog2 q).toNat) := by
        rw [← zpow_natCast (2:ℚ) (52 - floorLog2 q).toNat, Int.toNat_of_nonneg hs_nonneg]
      have hint : q * (2:ℚ) ^ (52 - floorLog2 q)
          = (((n / 10000) * 2 ^ (52 - floorLog2 q).toNat : ℤ) : ℚ) := by
        rw [h2z, hqf]
        push_cast
        ring
      rw [rndPos_eq_self q _ hint, hqf,
        pyTrunc_eq_floor _ (by exact_mod_cast hf0), Int.floor_intCast]
    · -- the quotient has fractional part at least 1/10000
      have hr1' : (1 : ℤ) ≤ n % 10000 := by omega
      have hrq_lb : (1:ℚ) / 10000 ≤ ((n % 10000 : ℤ) : ℚ) / 10000 := by
        have : (1 : ℚ) ≤ ((n % 10000 : ℤ) : ℚ) := by exact_mod_cast hr1'
        linarith
      have hrq_ub : ((n % 10000 : ℤ) : ℚ) / 10000 ≤ 9999 / 10000 := by
        have : ((n % 10000 : ℤ) : ℚ) ≤ 9999 := by exact_mod_cast (by omega : n % 10000 ≤ 9999)
        linarith
      have hlow2 : ((n / 10000 : ℤ) : ℚ) < rndPos q := by
        linarith [hlo, herr, hrq_lb, hq_eq]
      have hhigh2 : rndPos q < ((n / 10000 : ℤ) : ℚ) + 1 := by
        linarith [hhi, herr, hrq_ub, hq_eq]
      have hfl : ⌊rndPos q⌋ = n / 10000 := by
        rw [Int.floor_eq_iff]
        constructor
        · exact le_of_lt hlow2
        · push_cast at hhigh2 ⊢
          linarith
      have hnn : (0 : ℚ) ≤ rndPos q := by
        have : (0 : ℚ) ≤ ((n / 10000 : ℤ) : ℚ) := by exact_mod_cast hf0
        linarith
      rw [pyTrunc_eq_floor _ hnn, hfl]

end PySem

namespace Tetto.Transactions
open PySem

/-- C1: for every non-negative USD amount and every feeBasisPoints in
[0, 10000], the fee split computed when building a payment satisfies
serviceAmount + protocolFee = totalBaseUnits exactly, on both the stable
(USDC) path and the native (SOL) path.  The code sets
`agent_amount = amount_base - protocol_fee`, so the sum is exact integer
arithmetic whatever the fee came out to. -/
theorem C1_fee_split_sum_exact (price_usd : ℚ) (fee_bps : ℤ)
    (hp : 0 ≤ price_usd) (h0 : 0 ≤ fee_bps) (h1 : fee_bps ≤ 10000) :
    agent_amount (usdc_amount_base price_usd) fee_bps
        + protocol_fee (usdc_amount_base price_usd) fee_bps
      = usdc_amount_base price_usd
    ∧ agent_amount (amount_lamports price_usd) fee_bps
        + protocol_fee (amount_lamports price_usd) fee_bps
      = amount_lamports price_usd := by
  constructor <;> simp [agent_amount]

/-- Witness for C1 at price_usd = 1, fee_bps = 1000. -/
theorem C1_fee_split_sum_exact_witness :
    ((0:ℚ) ≤ 1 ∧ (0:ℤ) ≤ 1000 ∧ (1000:ℤ) ≤ 10000)
    ∧ (agent_amount (usdc_amount_base 1) 1000
          + protocol_fee (usdc_amount_base 1) 1000 = usdc_amount_base 1
       ∧ agent_amount (amount_lamports 1) 1000
          + protocol_fee (amount_lamports 1) 1000 = amount_lamports 1) :=
  ⟨⟨by norm_num, by norm_num, by norm_num⟩,
    C1_fee_split_sum_exact 1 1000 (by norm_num) (by norm_num) (by norm_num)⟩

/-- C2 counterexample: at amount_base = 1099627160001 and fee_bps = 9999
the code's fee `int(amount_base * fee_bps / 10000)` is 1099517197285,
but the exact floor of 1099627160001 * 9999 / 10000 is 1099517197284:
the binary64 quotient of 10995171972849999 / 10000 rounds up across the
integer boundary, so the truncated result exceeds the floor by one. -/
theorem C2_counterexample :
    protocol_fee 1099627160001 9999 = 1099517197285
    ∧ (1099627160001 * 9999 : ℤ) / 10000 = 1099517197284
    ∧ protocol_fee 1099627160001 9999 ≠ (1099627160001 * 9999 : ℤ) / 10000 := by
  have h1 : protocol_fee 1099627160001 9999 = 1099517197285 := by
    with_unfolding_all rfl
  have h2 : (1099627160001 * 9999 : ℤ) / 10000 = 1099517197284 := by decide
  exact ⟨h1, h2, by rw [h1, h2]; decide⟩

/-- C2 amended: for every total base-unit amount A ≥ 0 and feeBasisPoints
F in [0, 10000] with A * F ≤ 10^15 (all realistic magnitudes; beyond it
the binary64 quotient can round across an integer, see the C2
counterexample), the computed protocol fee equals the exact integer
floor of A * F / 10000 and the service amount equals A minus that fee. -/
theorem C2_protocol_fee_floor_bounded (amount_base fee_bps : ℤ)
    (h0 : 0 ≤ amount_base) (h1 : 0 ≤ fee_bps) (h2 : fee_bps ≤ 10000)
    (hb : amount_base * fee_bps ≤ 10 ^ 15) :
    protocol_fee amount_base fee_bps = amount_base * fee_bps / 10000
    ∧ agent_amount amount_base fee_bps
        = amount_base - amount_base * fee_bps / 10000 := by
  have key := PySem.trunc_truediv_eq_div (amount_base * fee_bps)
    (mul_nonneg h0 h1) hb
  refine ⟨?_, ?_⟩
  · unfold protocol_fee
    exact key
  · unfold agent_amount protocol_fee
    rw [key]

/-- Witness for C2 amended at amount_base = 1000000, fee_bps = 1000. -/
theorem C2_protocol_fee_floor_bounded_witness :
    ((0:ℤ) ≤ 1000000 ∧ (0:ℤ) ≤ 1000 ∧ (1000:ℤ) ≤ 10000
      ∧ (1000000 * 1000 : ℤ) ≤ 10 ^ 15)
    ∧ (protocol_fee 1000000 1000 = 1000000 * 1000 / 10000
       ∧ agent_amount 1000000 1000 = 1000000 - 1000000 * 1000 / 10000) :=
  ⟨⟨by decide, by decide, by decide, by decide⟩,
    C2_protocol_fee_floor_bounded 1000000 1000 (by decide) (by decide)
      (by decide) (by decide)⟩

/-- C3 counterexample: the unsupported token string "DOGE" does not fail;
`build_and_send_payment` routes it through the `else:  # SOL` branch and
produces exactly the transaction amounts of a SOL payment. -/
theorem C3_counterexample :
    (build_payment_plan "DOGE" 1 1000).path = TokenPath.sol
    ∧ build_payment_plan "DOGE" 1 1000 = build_payment_plan "SOL" 1 1000
    ∧ build_payment_plan "DOGE" 1 1000 =
        { path := .sol, amount_base := 5000000,
          protocol_fee := 500000, agent_amount := 4500000 } := by
  refine ⟨?_, ?_, ?_⟩ <;> with_unfolding_all rfl

/-- C3 amended: the token dispatch is a plain two-way branch on equality
with "USDC"; every other token string — supported or not — is routed to
the native (SOL) path and yields a transaction plan.  No
UnsupportedTokenError exists in the code and nothing is rejected. -/
theorem C3_non_usdc_routed_to_sol (token : String) (price_usd : ℚ)
    (fee_bps : ℤ) (h : token ≠ "USDC") :
    build_payment_plan token price_usd fee_bps
        = build_payment_plan "SOL" price_usd fee_bps
    ∧ (build_payment_plan token price_usd fee_bps).path = TokenPath.sol := by
  unfold build_payment_plan
  rw [if_neg h, if_neg (by decide : ¬("SOL" = "USDC"))]
  exact ⟨rfl, rfl⟩

/-- Witness for C3 amended at token = "DOGE". -/
theorem C3_non_usdc_routed_to_sol_witness :
    "DOGE" ≠ "USDC"
    ∧ (build_payment_plan "DOGE" 1 1000 = build_payment_plan "SOL" 1 1000
       ∧ (build_payment_plan "DOGE" 1 1000).path = TokenPath.sol) :=
  ⟨by decide, C3_non_usdc_routed_to_sol "DOGE" 1 1000 (by decide)⟩

/-- C4 evidence: the USD-to-SOL exchange rate used by the native path is
the hard-coded constant `sol_price = 200.0` (transactions.py:129, with a
TODO to fetch it from an API); a one-dollar SOL payment is priced from
that constant (1/200 SOL = 5000000 lamports), with no external price
input anywhere in `build_and_send_payment`'s signature. -/
theorem C4_exchange_rate_hardcoded :
    sol_price = 200
    ∧ build_payment_plan "SOL" 1 1000 =
        { path := .sol, amount_base := 5000000,
          protocol_fee := 500000, agent_amount := 4500000 } :=
  ⟨rfl, by with_unfolding_all rfl⟩

/-- C8: for price = $1.00, feeBasisPoints = 1000, token = stable (USDC,
6 decimals), the fee split computes protocolFee = 100000 and
serviceAmount = 900000 base units of a total of 1000000. -/
theorem C8_concrete_one_dollar_split :
    build_payment_plan "USDC" 1 1000 =
      { path := .usdc, amount_base := 1000000,
        protocol_fee := 100000, agent_amount := 900000 } := by
  with_unfolding_all rfl

end Tetto.Transactions

namespace Tetto.Client

/-- C6: in the platform-built (Variant B) flow, `call_agent` performs no
direct ledger action anywhere in its trace, and once the platform-built
transaction is signed locally the only remaining action is the single
POST of the signed transaction plus the payment-intent identifier to the
relay endpoint. -/
theorem C6_sign_then_relay_only (env : Env) (kp : Keypair)
    (agent_id input_data preferred_token : String)
    (ha : env.agent_ok = true) (hb : env.build_response.ok = true) :
    (∀ a ∈ (call_agent env (some kp) agent_id input_data preferred_token).1,
        a.isLedger = false)
    ∧ actionsAfterSign
        (call_agent env (some kp) agent_id input_data preferred_token).1
      = [Action.httpPostCall env.build_response.payment_intent_id
          env.build_response.transaction
          (kp.sign_message env.build_response.transaction)] := by
  have htrace :
      (call_agent env (some kp) agent_id input_data preferred_token).1
      = [Action.httpGetAgent agent_id,
         Action.httpPostBuildTransaction agent_id kp.pubkey preferred_token input_data,
         Action.signMessage env.build_response.transaction,
         Action.httpPostCall env.build_response.payment_intent_id
           env.build_response.transaction
           (kp.sign_message env.build_response.transaction)] := by
    simp only [call_agent, ha, hb]
    by_cases hc : env.call_response.ok = false <;> simp [hc]
  rw [htrace]
  constructor
  · intro a hmem
    rcases hmem with _ | ⟨_, _ | ⟨_, _ | ⟨_, _ | ⟨_, h⟩⟩⟩⟩ <;>
      first
        | rfl
        | cases h
  · rfl

/-- C7: in Variant B, when the build-transaction endpoint answers non-ok
(e.g. the input failed validation), `call_agent` raises the
transaction-building failure carrying the platform's error message, and
its trace contains no POST to the submission endpoint and no signing
step: nothing is signed and zero funds move. -/
theorem C7_build_failure_stops_flow (env : Env) (kp : Keypair)
    (agent_id input_data preferred_token : String)
    (ha : env.agent_ok = true) (hb : env.build_response.ok = false) :
    (call_agent env (some kp) agent_id input_data preferred_token).2
      = .error (.transactionBuildingFailed
          (env.build_response.error.getD "Transaction building failed"))
    ∧ (∀ a ∈ (call_agent env (some kp) agent_id input_data preferred_token).1,
        a.isSubmitPost = false ∧ a.isSign = false) := by
  have hpair :
      call_agent env (some kp) agent_id input_data preferred_token
      = ([Action.httpGetAgent agent_id,
          Action.httpPostBuildTransaction agent_id kp.pubkey preferred_token input_data],
         .error (.transactionBuildingFailed
           (env.build_response.error.getD "Transaction building failed"))) := by
    simp [call_agent, ha, hb]
  rw [hpair]
  refine ⟨rfl, ?_⟩
  intro a hmem
  rcases hmem with _ | ⟨_, _ | ⟨_, h⟩⟩
  · exact ⟨rfl, rfl⟩
  · exact ⟨rfl, rfl⟩
  · cases h

/-- C10: every network string other than "mainnet" — arbitrary unknown
names included, not just "devnet" — silently selects the devnet constant
triple (RPC URL, protocol wallet, USDC mint); the constructor rejects
nothing. -/
theorem C10_unknown_network_defaults_to_devnet (network : String)
    (h : network ≠ "mainnet") :
    init_network_config network none none = devnetConfig := by
  unfold init_network_config
  rw [if_neg h]
  rfl

/-- Witness for C10 at an arbitrary unknown network string. -/
theorem C10_unknown_network_defaults_to_devnet_witness :
    "testnet-typo" ≠ "mainnet"
    ∧ init_network_config "testnet-typo" none none = devnetConfig :=
  ⟨by decide, C10_unknown_network_defaults_to_devnet "testnet-typo" (by decide)⟩

/-- Witness for C6 at the concrete all-ok environment. -/
theorem C6_sign_then_relay_only_witness :
    (sampleEnvOk.agent_ok = true ∧ sampleEnvOk.build_response.ok = true)
    ∧ ((∀ a ∈ (call_agent sampleEnvOk (some sampleKeypair) "a1" "in" "USDC").1,
          a.isLedger = false)
       ∧ actionsAfterSign
           (call_agent sampleEnvOk (some sampleKeypair) "a1" "in" "USDC").1
         = [Action.httpPostCall sampleEnvOk.build_response.payment_intent_id
             sampleEnvOk.build_response.transaction
             (sampleKeypair.sign_message sampleEnvOk.build_response.transaction)]) :=
  ⟨⟨rfl, rfl⟩,
    C6_sign_then_relay_only sampleEnvOk sampleKeypair "a1" "in" "USDC" rfl rfl⟩

/-- Witness for C7 at the concrete build-failure environment. -/
theorem C7_build_failure_stops_flow_witness :
    (sampleEnvBuildFail.agent_ok = true
      ∧ sampleEnvBuildFail.build_response.ok = false)
    ∧ ((call_agent sampleEnvBuildFail (some sampleKeypair) "a1" "in" "USDC").2
        = .error (.transactionBuildingFailed
            (sampleEnvBuildFail.build_response.error.getD
              "Transaction building failed"))
       ∧ (∀ a ∈ (call_agent sampleEnvBuildFail (some sampleKeypair) "a1" "in" "USDC").1,
            a.isSubmitPost = false ∧ a.isSign = false)) :=
  ⟨⟨rfl, rfl⟩,
    C7_build_failure_stops_flow sampleEnvBuildFail sampleKeypair "a1" "in" "USDC"
      rfl rfl⟩

end Tetto.Client

namespace Tetto.Wallet

/-- The 64 zero bytes that `bytes(64)` produces do not form a consistent
keypair, provided the all-zero public key is not the derivation of the
all-zero secret (true of real ed25519, taken as a hypothesis on the
parameters). -/
theorem consistent_zeros_false (valid_point : List ℤ → Bool)
    (derive_pubkey : List ℤ → List ℤ)
    (hzero : ¬(valid_point (List.replicate 32 (0:ℤ)) = true
        ∧ derive_pubkey (List.replicate 32 (0:ℤ)) = List.replicate 32 (0:ℤ))) :
    consistentKeypairBytes valid_point derive_pubkey
      (List.replicate 64 (0:ℤ)) = false := by
  unfold consistentKeypairBytes
  have ht : (List.replicate 64 (0:ℤ)).take 32 = List.replicate 32 (0:ℤ) := by
    rw [List.take_replicate]
    norm_num
  have hd : (List.replicate 64 (0:ℤ)).drop 32 = List.replicate 32 (0:ℤ) := by
    rw [List.drop_replicate]
  rw [ht, hd]
  cases hvp : valid_point (List.replicate 32 (0:ℤ)) with
  | false => rw [Bool.false_and]
  | true =>
    have hne : derive_pubkey (List.replicate 32 (0:ℤ)) ≠ List.replicate 32 (0:ℤ) :=
      fun hc => hzero ⟨hvp, hc⟩
    rw [Bool.true_and]
    exact decide_eq_false hne

/-- Bind through a successful decode. -/
theorem exceptBind_ok {α β : Type} (a : α) (f : α → Except KeyError β) :
    (Except.ok a : Except KeyError α).bind f = f a := rfl

/-- Bind through a failed decode. -/
theorem exceptBind_error {α β : Type} (e : KeyError) (f : α → Except KeyError β) :
    (Except.error e : Except KeyError α).bind f = .error e := rfl

/-- Anything that is not a 64-byte array is rejected by the byte
decoding / `from_bytes` pipeline. -/
theorem loadBytes_not_array_error (valid_point : List ℤ → Bool)
    (derive_pubkey : List ℤ → List ℤ)
    (hzero : ¬(valid_point (List.replicate 32 (0:ℤ)) = true
        ∧ derive_pubkey (List.replicate 32 (0:ℤ)) = List.replicate 32 (0:ℤ)))
    (v : PyValue) (hv : isKeyArray64 v = false) :
    ∃ e, loadBytes valid_point derive_pubkey v = .error e := by
  cases v with
  | other => exact ⟨.bytesConversionError, rfl⟩
  | num n =>
    by_cases hn : 0 ≤ n
    · by_cases h64 : n = 64
      · subst h64
        refine ⟨.fromBytesError, ?_⟩
        have hc := consistent_zeros_false valid_point derive_pubkey hzero
        rw [loadBytes, pyBytes, if_pos hn]
        rw [show ((64:ℤ)).toNat = 64 from rfl, exceptBind_ok]
        rw [keypair_from_bytes,
          if_pos (by rw [List.length_replicate] : (List.replicate 64 (0:ℤ)).length = 64),
          if_neg (by rw [hc]; exact Bool.false_ne_true)]
      · refine ⟨.fromBytesError, ?_⟩
        have hne : (List.replicate n.toNat (0:ℤ)).length ≠ 64 := by
          rw [List.length_replicate]
          omega
        rw [loadBytes, pyBytes, if_pos hn, exceptBind_ok, keypair_from_bytes,
          if_neg hne]
    · refine ⟨.bytesConversionError, ?_⟩
      rw [loadBytes, pyBytes, if_neg hn, exceptBind_error]
  | list l =>
    by_cases hall : l.all (fun b => (0 ≤ b && b < 256)) = true
    · have hlen : l.length ≠ 64 := by
        intro hc
        rw [isKeyArray64] at hv
        simp [hc, hall] at hv
      refine ⟨.fromBytesError, ?_⟩
      rw [loadBytes, pyBytes, if_pos hall, exceptBind_ok, keypair_from_bytes,
        if_neg hlen]
    · refine ⟨.bytesConversionError, ?_⟩
      rw [loadBytes, pyBytes, if_neg hall, exceptBind_error]

/-- A well-formed 64-byte array that fails the keypair-consistency check
is rejected with the `from_bytes` error. -/
theorem loadBytes_inconsistent_error (valid_point : List ℤ → Bool)
    (derive_pubkey : List ℤ → List ℤ) (bs : List ℤ)
    (hkey : isKeyArray64 (.list bs) = true)
    (hcons : consistentKeypairBytes valid_point derive_pubkey bs = false) :
    loadBytes valid_point derive_pubkey (.list bs) = .error .fromBytesError := by
  rw [isKeyArray64] at hkey
  have hall : bs.all (fun b => 0 ≤ b && b < 256) = true :=
    (Bool.and_eq_true _ _ |>.mp hkey).2
  have hlen : bs.length = 64 :=
    eq_of_beq (Bool.and_eq_true _ _ |>.mp hkey).1
  rw [loadBytes, pyBytes, if_pos hall, exceptBind_ok, keypair_from_bytes,
    if_pos hlen, if_neg (by rw [hcons]; exact Bool.false_ne_true)]

/-- A successful decode returns exactly the provided bytes: the secret
and public halves concatenate back to the input list. -/
theorem loadBytes_ok_bytes (valid_point : List ℤ → Bool)
    (derive_pubkey : List ℤ → List ℤ)
    (hzero : ¬(valid_point (List.replicate 32 (0:ℤ)) = true
        ∧ derive_pubkey (List.replicate 32 (0:ℤ)) = List.replicate 32 (0:ℤ)))
    (v : PyValue) (kp : Keypair)
    (hok : loadBytes valid_point derive_pubkey v = .ok kp) :
    ∃ l, v = .list l ∧ kp.secret ++ kp.pubkey = l := by
  by_cases hv : isKeyArray64 v = true
  · cases v with
    | other => cases hv
    | num n => cases hv
    | list l =>
      refine ⟨l, rfl, ?_⟩
      rw [isKeyArray64] at hv
      have hall : l.all (fun b => 0 ≤ b && b < 256) = true :=
        (Bool.and_eq_true _ _ |>.mp hv).2
      have hlen : l.length = 64 :=
        eq_of_beq (Bool.and_eq_true _ _ |>.mp hv).1
      rw [loadBytes, pyBytes, if_pos hall, exceptBind_ok] at hok
      rw [keypair_from_bytes, if_pos hlen] at hok
      by_cases hcons : consistentKeypairBytes valid_point derive_pubkey l = true
      · rw [if_pos hcons] at hok
        injection hok with h
        rw [← h]
        exact List.take_append_drop 32 l
      · rw [if_neg hcons] at hok
        cases hok
  · obtain ⟨e, he⟩ :=
      loadBytes_not_array_error valid_point derive_pubkey hzero v
        (Bool.eq_false_iff.mpr fun hc => hv hc)
    rw [he] at hok
    cases hok

/-- C9: both key loaders fail with an error whenever the configured
source (file or environment variable) is absent, or its contents are
not a byte array of the expected size 64, or the decoded material does
not form a valid keypair under the dependency's `from_bytes` check; and
a successful load returns exactly the bytes the source held — no key is
silently generated (wallet.py's `generate_keypair` is a separate,
explicit operation the loaders never call).  The ed25519 primitives are
parameters, assumed only to reject the all-zero keypair bytes that
Python's `bytes(64)` pitfall can produce on the env path. -/
theorem C9_key_loading_fails_closed
    (valid_point : List ℤ → Bool) (derive_pubkey : List ℤ → List ℤ)
    (fs : String → FileContents) (envm : String → EnvContents)
    (path env_var : String)
    (hzero : ¬(valid_point (List.replicate 32 (0:ℤ)) = true
        ∧ derive_pubkey (List.replicate 32 (0:ℤ)) = List.replicate 32 (0:ℤ))) :
    (fs path = .missing →
      load_keypair_from_file valid_point derive_pubkey fs path
        = .error .fileNotFound)
    ∧ (∀ v, fs path = .json v → isKeyArray64 v = false →
        ∃ e, load_keypair_from_file valid_point derive_pubkey fs path = .error e)
    ∧ (∀ bs, fs path = .json (.list bs) → isKeyArray64 (.list bs) = true →
        consistentKeypairBytes valid_point derive_pubkey bs = false →
        load_keypair_from_file valid_point derive_pubkey fs path
          = .error .fromBytesError)
    ∧ (∀ kp, load_keypair_from_file valid_point derive_pubkey fs path = .ok kp →
        fs path = .json (.list (kp.secret ++ kp.pubkey)))
    ∧ (envm env_var = .unsetOrEmpty →
        load_keypair_from_env valid_point derive_pubkey envm env_var
          = .error .envVarNotSet)
    ∧ (∀ v, envm env_var = .json v → isKeyArray64 v = false →
        ∃ e, load_keypair_from_env valid_point derive_pubkey envm env_var
          = .error e)
    ∧ (∀ bs, envm env_var = .json (.list bs) → isKeyArray64 (.list bs) = true →
        consistentKeypairBytes valid_point derive_pubkey bs = false →
        load_keypair_from_env valid_point derive_pubkey envm env_var
          = .error .fromBytesError)
    ∧ (∀ kp, load_keypair_from_env valid_point derive_pubkey envm env_var
          = .ok kp →
        envm env_var = .json (.list (kp.secret ++ kp.pubkey))) := by
  refine ⟨?_, ?_, ?_, ?_, ?_, ?_, ?_, ?_⟩
  · intro h
    simp [load_keypair_from_file, h]
  · intro v hv hbad
    cases v with
    | list l =>
      by_cases hlen : l.length = 64
      · obtain ⟨e, he⟩ :=
          loadBytes_not_array_error valid_point derive_pubkey hzero (.list l) hbad
        exact ⟨e, by simp [load_keypair_from_file, hv, hlen, he]⟩
      · exact ⟨.invalidKeypairFormat, by simp [load_keypair_from_file, hv, hlen]⟩
    | num n => exact ⟨.invalidKeypairFormat, by simp [load_keypair_from_file, hv]⟩
    | other => exact ⟨.invalidKeypairFormat, by simp [load_keypair_from_file, hv]⟩
  · intro bs hv hkey hcons
    have hlen : bs.length = 64 := by
      rw [isKeyArray64] at hkey
      exact eq_of_beq (Bool.and_eq_true _ _ |>.mp hkey).1
    simp only [load_keypair_from_file, hv, if_pos hlen]
    exact loadBytes_inconsistent_error valid_point derive_pubkey bs hkey hcons
  · intro kp hok
    cases hfs : fs path with
    | missing => simp [load_keypair_from_file, hfs] at hok
    | invalidJson => simp [load_keypair_from_file, hfs] at hok
    | json v =>
      cases v with
      | num n => simp [load_keypair_from_file, hfs] at hok
      | other => simp [load_keypair_from_file, hfs] at hok
      | list l =>
        simp only [load_keypair_from_file, hfs] at hok
        by_cases hlen : l.length = 64
        · rw [if_pos hlen] at hok
          obtain ⟨l', hl', hbytes⟩ :=
            loadBytes_ok_bytes valid_point derive_pubkey hzero (.list l) kp hok
          injection hl' with hll
          rw [hbytes, hll]
        · rw [if_neg hlen] at hok
          cases hok
  · intro h
    simp [load_keypair_from_env, h]
  · intro v hv hbad
    obtain ⟨e, he⟩ :=
      loadBytes_not_array_error valid_point derive_pubkey hzero v hbad
    exact ⟨e, by simp [load_keypair_from_env, hv, he]⟩
  · intro bs hv hkey hcons
    simp only [load_keypair_from_env, hv]
    exact loadBytes_inconsistent_error valid_point derive_pubkey bs hkey hcons
  · intro kp hok
    cases henv : envm env_var with
    | unsetOrEmpty => simp [load_keypair_from_env, henv] at hok
    | invalidJson => simp [load_keypair_from_env, henv] at hok
    | json v =>
      simp only [load_keypair_from_env, henv] at hok
      obtain ⟨l, hl, hbytes⟩ :=
        loadBytes_ok_bytes valid_point derive_pubkey hzero v kp hok
      rw [hl, hbytes]

/-- Witness for C9 at concrete parameters: no point is valid, every
source absent. -/
theorem C9_key_loading_fails_closed_witness :
    (¬((fun _ : List ℤ => false) (List.replicate 32 (0:ℤ)) = true
       ∧ (fun _ : List ℤ => ([] : List ℤ)) (List.replicate 32 (0:ℤ))
           = List.replicate 32 (0:ℤ)))
    ∧ (((fun _ : String => FileContents.missing) "k.json" = .missing →
          load_keypair_from_file (fun _ => false) (fun _ => [])
            (fun _ => .missing) "k.json" = .error .fileNotFound)
       ∧ (∀ v, (fun _ : String => FileContents.missing) "k.json" = .json v →
            isKeyArray64 v = false →
            ∃ e, load_keypair_from_file (fun _ => false) (fun _ => [])
              (fun _ => .missing) "k.json" = .error e)
       ∧ (∀ bs, (fun _ : String => FileContents.missing) "k.json"
              = .json (.list bs) →
            isKeyArray64 (.list bs) = true →
            consistentKeypairBytes (fun _ => false) (fun _ => []) bs = false →
            load_keypair_from_file (fun _ => false) (fun _ => [])
              (fun _ => .missing) "k.json" = .error .fromBytesError)
       ∧ (∀ kp, load_keypair_from_file (fun _ => false) (fun _ => [])
              (fun _ => .missing) "k.json" = .ok kp →
            (fun _ : String => FileContents.missing) "k.json"
              = .json (.list (kp.secret ++ kp.pubkey)))
       ∧ ((fun _ : String => EnvContents.unsetOrEmpty) "SOLANA_PRIVATE_KEY"
              = .unsetOrEmpty →
            load_keypair_from_env (fun _ => false) (fun _ => [])
              (fun _ => .unsetOrEmpty) "SOLANA_PRIVATE_KEY"
              = .error .envVarNotSet)
       ∧ (∀ v, (fun _ : String => EnvContents.unsetOrEmpty) "SOLANA_PRIVATE_KEY"
              = .json v →
            isKeyArray64 v = false →
            ∃ e, load_keypair_from_env (fun _ => false) (fun _ => [])
              (fun _ => .unsetOrEmpty) "SOLANA_PRIVATE_KEY" = .error e)
       ∧ (∀ bs, (fun _ : String => EnvContents.unsetOrEmpty) "SOLANA_PRIVATE_KEY"
              = .json (.list bs) →
            isKeyArray64 (.list bs) = true →
            consistentKeypairBytes (fun _ => false) (fun _ => []) bs = false →
            load_keypair_from_env (fun _ => false) (fun _ => [])
              (fun _ => .unsetOrEmpty) "SOLANA_PRIVATE_KEY"
              = .error .fromBytesError)
       ∧ (∀ kp, load_keypair_from_env (fun _ => false) (fun _ => [])
              (fun _ => .unsetOrEmpty) "SOLANA_PRIVATE_KEY" = .ok kp →
            (fun _ : String => EnvContents.unsetOrEmpty) "SOLANA_PRIVATE_KEY"
              = .json (.list (kp.secret ++ kp.pubkey)))) :=
  ⟨by simp,
    C9_key_loading_fails_closed (fun _ => false) (fun _ => [])
      (fun _ => .missing) (fun _ => .unsetOrEmpty) "k.json" "SOLANA_PRIVATE_KEY"
      (by simp)⟩

end Tetto.Wallet

namespace Tetto.Ata

/-- Known-answer validation of the embedded SHA-256: the empty message. -/
theorem sha256_empty_vector :
    sha256 [] =
      [227, 176, 196, 66, 152, 252, 28, 20, 154, 251, 244, 200, 153, 111, 185, 36,
       39, 174, 65, 228, 100, 155, 147, 76, 164, 149, 153, 27, 120, 82, 184, 85] := by
  decide

/-- Known-answer validation of the embedded SHA-256: the message "abc". -/
theorem sha256_abc_vector :
    sha256 [97, 98, 99] =
      [186, 120, 22, 191, 143, 1, 207, 234, 65, 65, 64, 222, 93, 174, 34, 35,
       176, 3, 97, 163, 150, 23, 122, 156, 180, 16, 255, 97, 242, 0, 21, 173] := by
  decide

/-- Validation of the curve check: the compressed ed25519 base point
(y = 4/5, bytes 0x58 then 31 times 0x66) decompresses. -/
theorem basepoint_on_curve : onCurve ([88] ++ List.replicate 31 102) = true := by
  decide

/-- Cross-validation of the whole derivation: the ATA of `walletSample`
and the devnet USDC mint, computed inside the model (SHA-256, curve
check, bump search), matches an independent implementation of the
documented Solana PDA algorithm on the same input. -/
theorem ata_concrete_check :
    get_associated_token_address walletSample usdcDevnetMint
      = some (pubkeyOfList [4, 236, 87, 134, 1, 159, 35, 30, 254, 9, 133, 66, 219, 241, 13, 119, 249, 239, 108, 34, 122, 0, 18, 39, 79, 80, 59, 136, 255, 97, 176, 121]) := by
  decide

/-- C5 counterexample: the resolution cannot both always yield an
address and send every two distinct pairs to distinct addresses — the
2^512 input pairs strictly outnumber the 2^256 possible addresses, so a
hash-based derivation necessarily collides somewhere. -/
theorem C5_counterexample : ¬(AtaTotal ∧ AtaInjective) := by
  rintro ⟨ht, hi⟩
  have hginj : Function.Injective
      (fun pr : Pubkey × Pubkey =>
        (get_associated_token_address pr.1 pr.2).get (ht pr.1 pr.2)) := by
    intro a b hab
    by_contra hne
    have hpair : (a.1, a.2) ≠ (b.1, b.2) := by
      intro hc
      exact hne (by
        calc a = (a.1, a.2) := rfl
          _ = (b.1, b.2) := hc
          _ = b := rfl)
    have hab' : (get_associated_token_address a.1 a.2).get (ht a.1 a.2)
        = (get_associated_token_address b.1 b.2).get (ht b.1 b.2) := hab
    have hgeq : get_associated_token_address a.1 a.2
        = get_associated_token_address b.1 b.2 := by
      rw [← Option.some_get (ht a.1 a.2), ← Option.some_get (ht b.1 b.2), hab']
    exact hi a.1 a.2 b.1 b.2 hpair hgeq
  have hcard := Fintype.card_le_of_injective _ hginj
  rw [Fintype.card_prod] at hcard
  have hpk : 2 ≤ Fintype.card Pubkey := by
    have hcf : Fintype.card Pubkey = 256 ^ 32 := by
      rw [Fintype.card_fun]
      simp
    rw [hcf]
    norm_num
  nlinarith

/-- C5 amended: sub-account (associated token account) resolution is a
pure, deterministic function of the owner wallet and token mint:
invocations on equal pairs always yield equal addresses, and the whole
computation is hashing — no network operation appears anywhere in the
pipeline.  Distinct pairs are NOT guaranteed distinct addresses; see
the counterexample. -/
theorem C5_resolution_deterministic (w m w' m' : Pubkey)
    (hw : w = w') (hm : m = m') :
    get_associated_token_address w m = get_associated_token_address w' m' := by
  rw [hw, hm]

/-- Witness for C5 amended at the concrete wallet and devnet mint. -/
theorem C5_resolution_deterministic_witness :
    (walletSample = walletSample ∧ usdcDevnetMint = usdcDevnetMint)
    ∧ get_associated_token_address walletSample usdcDevnetMint
        = get_associated_token_address walletSample usdcDevnetMint :=
  ⟨⟨rfl, rfl⟩, C5_resolution_deterministic _ _ _ _ rfl rfl⟩

end Tetto.Ata
